import Mathlib

/-!
Verification development for the terminal-shadow command recorder
(`src/filter.py`, `src/updater.py`, `src/heartbeat.py`).

Python strings are modelled as `List Char` (`Str`).  Python's string
methods (`strip`, `split`, `in`, slicing, `startswith`, `join`) are
translated below; machine-level details that the code never relies on
(Unicode case folding beyond ASCII, locale) are modelled at ASCII level,
which covers every string the code and the claims manipulate.
-/

set_option maxRecDepth 100000

namespace Shadow

abbrev Str := List Char

/-- Whitespace as Python `str.strip` / `str.split()` / regex `\s` see it
(ASCII subset). -/
def pyIsWs (c : Char) : Bool :=
  c = ' ' || c = '\t' || c = '\n' || c = '\r' || c = '\x0b' || c = '\x0c'

/-- Python `str.strip()`: drop whitespace from both ends. -/
def pyStrip (s : Str) : Str :=
  ((s.dropWhile pyIsWs).reverse.dropWhile pyIsWs).reverse

/-- Accumulator-style worker for `str.split()` (no separator): whitespace
runs separate tokens and produce no empty tokens. -/
def pySplitWsAux (cur : Str) : Str → List Str
  | [] => if cur = [] then [] else [cur.reverse]
  | c :: t =>
    if pyIsWs c then
      if cur = [] then pySplitWsAux [] t else cur.reverse :: pySplitWsAux [] t
    else pySplitWsAux (c :: cur) t

/-- Python `str.split()` with no argument. -/
def pySplitWs (s : Str) : List Str := pySplitWsAux [] s

/-- Index of the leftmost occurrence of `pat` in the suffix of the scanned
string, counting from `i`.  Worker for `findSubIdx`. -/
def findSubIdxAux (pat : Str) : Str → Nat → Option Nat
  | [], i => if pat.isPrefixOf [] then some i else none
  | c :: t, i => if pat.isPrefixOf (c :: t) then some i else findSubIdxAux pat t (i + 1)

/-- Python `str.find` (as an `Option`): index of the leftmost occurrence. -/
def findSubIdx (pat s : Str) : Option Nat := findSubIdxAux pat s 0

/-- Python `pat in s` (substring containment). -/
def containsSub (pat s : Str) : Bool := (findSubIdx pat s).isSome

/-- Leftmost index `i` such that `pat` occurs at `i` and at least one more
character follows the occurrence.  This is exactly where a Python regex of
the shape `LIT(.+)` or `LIT[^\n]+` (on newline-free lines) first matches,
since `.`/`[^\n]` need one character after the literal. -/
def findCapIdxAux (pat : Str) : Str → Nat → Option Nat
  | [], _ => none
  | c :: t, i =>
    if pat.isPrefixOf (c :: t) && decide ((c :: t).drop pat.length ≠ []) then some i
    else findCapIdxAux pat t (i + 1)

/-- Leftmost occurrence of `pat` followed by a nonempty remainder. -/
def findCapIdx (pat s : Str) : Option Nat := findCapIdxAux pat s 0

theorem findSubIdxAux_isSome (pat : Str) :
    ∀ (s : Str) (i : Nat), (findSubIdxAux pat s i).isSome = true ↔ ∃ a b, a ++ pat ++ b = s := by
  intro s
  induction s with
  | nil =>
    intro i
    constructor
    · intro hs
      by_cases h : pat.isPrefixOf ([] : Str)
      · have hp : pat = [] := List.prefix_nil.mp (List.isPrefixOf_iff_prefix.mp h)
        exact ⟨[], [], by simp [hp]⟩
      · unfold findSubIdxAux at hs
        rw [if_neg h] at hs
        simp at hs
    · rintro ⟨a, b, hab⟩
      rcases List.append_eq_nil.mp hab with ⟨h1, h2⟩
      rcases List.append_eq_nil.mp h1 with ⟨h3, h4⟩
      have hpre : pat.isPrefixOf ([] : Str) = true :=
        List.isPrefixOf_iff_prefix.mpr (h4 ▸ List.nil_prefix)
      unfold findSubIdxAux
      rw [if_pos hpre]
      simp
  | cons c t ih =>
    intro i
    by_cases h : pat.isPrefixOf (c :: t)
    · constructor
      · intro _
        rcases List.isPrefixOf_iff_prefix.mp h with ⟨b, hb⟩
        exact ⟨[], b, by simpa using hb⟩
      · intro _
        unfold findSubIdxAux
        rw [if_pos h]
        simp
    · unfold findSubIdxAux
      rw [if_neg h, ih (i + 1)]
      constructor
      · rintro ⟨a, b, hab⟩
        exact ⟨c :: a, b, by simp [hab]⟩
      · rintro ⟨a, b, hab⟩
        cases a with
        | nil =>
          exact absurd (List.isPrefixOf_iff_prefix.mpr ⟨b, by simpa using hab⟩) h
        | cons x a2 =>
          have hcons : x :: (a2 ++ (pat ++ b)) = c :: t := by simpa using hab
          have h2 : a2 ++ (pat ++ b) = t := (List.cons_eq_cons.mp hcons).2
          exact ⟨a2, b, by simpa using h2⟩

/-- `containsSub` captures list-infix. -/
theorem containsSub_correct (pat s : Str) :
    containsSub pat s = true ↔ pat <:+: s := by
  unfold containsSub findSubIdx
  rw [findSubIdxAux_isSome]
  constructor
  · rintro ⟨a, b, hab⟩; exact ⟨a, b, hab⟩
  · rintro ⟨a, b, hab⟩; exact ⟨a, b, hab⟩

/-- Single-character split: Python `s.split('\n')`. -/
def splitLines : Str → List Str
  | [] => [[]]
  | c :: t =>
    if c = '\n' then [] :: splitLines t
    else
      match splitLines t with
      | [] => [[c]]
      | h :: r => (c :: h) :: r

/-- Python `'\n'.join(lines)`. -/
def joinLines (xs : List Str) : Str := List.intercalate [ '\n' ] xs

theorem splitLines_ne_nil (s : Str) : splitLines s ≠ [] := by
  induction s with
  | nil => simp [splitLines]
  | cons c t ih =>
    by_cases h : c = '\n'
    · simp [splitLines, h]
    · simp only [splitLines, h, if_false]
      cases hs : splitLines t with
      | nil => simp
      | cons a r => simp

theorem splitLines_append_newline (a b : Str) :
    splitLines (a ++ '\n' :: b) = splitLines a ++ splitLines b := by
  induction a with
  | nil => simp [splitLines]
  | cons c t ih =>
    by_cases h : c = '\n'
    · simp [splitLines, h, ih]
    · cases hs : splitLines t with
      | nil => exact absurd hs (splitLines_ne_nil t)
      | cons x r =>
        show splitLines (c :: (t ++ '\n' :: b)) = splitLines (c :: t) ++ splitLines b
        simp only [splitLines, h, if_false, ih, hs]
        simp

theorem not_newline_mem_splitLines {l s : Str} (hmem : l ∈ splitLines s) : '\n' ∉ l := by
  induction s generalizing l with
  | nil =>
    simp [splitLines] at hmem
    simp [hmem]
  | cons c t ih =>
    by_cases h : c = '\n'
    · simp [splitLines, h] at hmem
      rcases hmem with hmem | hmem
      · simp [hmem]
      · exact ih hmem
    · simp only [splitLines, h, if_false] at hmem
      cases hs : splitLines t with
      | nil => exact absurd hs (splitLines_ne_nil t)
      | cons x r =>
        rw [hs] at hmem
        rcases List.mem_cons.mp hmem with hmem | hmem
        · subst hmem
          intro hc
          rcases List.mem_cons.mp hc with hc | hc
          · exact h hc.symm
          · exact ih (hs ▸ List.mem_cons_self x r) hc
        · exact ih (hs ▸ List.mem_cons.mpr (Or.inr hmem))

theorem splitLines_eq_self_of_no_newline {l : Str} (h : '\n' ∉ l) : splitLines l = [l] := by
  induction l with
  | nil => simp [splitLines]
  | cons c t ih =>
    have hc : c ≠ '\n' := fun hc => h (hc ▸ List.mem_cons_self c t)
    have ht : '\n' ∉ t := fun hm => h (List.mem_cons.mpr (Or.inr hm))
    simp only [splitLines, hc, if_false, ih ht]

theorem intercalate_cons_cons (sep : Str) (x y : Str) (r : List Str) :
    List.intercalate sep (x :: y :: r) = x ++ sep ++ List.intercalate sep (y :: r) := by
  simp [List.intercalate, List.intersperse]

theorem splitLines_joinLines (xs : List Str) (hne : xs ≠ []) :
    splitLines (joinLines xs) = xs.flatMap splitLines := by
  induction xs with
  | nil => exact absurd rfl hne
  | cons x r ih =>
    cases r with
    | nil => simp [joinLines, List.intercalate]
    | cons y r2 =>
      have : joinLines (x :: y :: r2) = x ++ '\n' :: joinLines (y :: r2) := by
        have := intercalate_cons_cons [ '\n' ] x y r2
        simpa [joinLines] using this
      rw [this, splitLines_append_newline, ih (by simp)]
      simp

/-- Worker for `pySplit`.  The fuel only bounds the recursion for the
termination checker: with a nonempty separator every step drops at least
one character, so fuel `s.length + 1` is never exhausted. -/
def pySplitAux (sep : Str) : Nat → Str → List Str
  | 0, s => [s]
  | fuel + 1, s =>
    match findSubIdx sep s with
    | none => [s]
    | some i => s.take i :: pySplitAux sep fuel (s.drop (i + sep.length))

/-- Python `s.split(sep)` for a nonempty separator: split at every
occurrence, left to right.  (Python raises on an empty separator; the
code never passes one, and we return `[s]` in that case.) -/
def pySplit (sep s : Str) : List Str :=
  if sep = [] then [s] else pySplitAux sep (s.length + 1) s

/-- Python `list.insert(n, a)`: insert before index `n`, appending when
`n` is past the end. -/
def insertAt (n : Nat) (a : α) : List α → List α
  | l =>
    match n, l with
    | 0, l => a :: l
    | _ + 1, [] => [a]
    | m + 1, x :: t => x :: insertAt m a t

theorem mem_insertAt {a x : α} : ∀ (n : Nat) (l : List α), x ∈ l → x ∈ insertAt n a l := by
  intro n
  induction n with
  | zero => intro l h; simp [insertAt, h]
  | succ m ih =>
    intro l h
    cases l with
    | nil => simp at h
    | cons y t =>
      rcases List.mem_cons.mp h with h | h
      · simp [insertAt, h]
      · simp only [insertAt]
        exact List.mem_cons.mpr (Or.inr (ih t h))

theorem insertAt_ne_nil (n : Nat) (a : α) (l : List α) : insertAt n a l ≠ [] := by
  cases n with
  | zero => simp [insertAt]
  | succ m => cases l with
    | nil => simp [insertAt]
    | cons x t => simp [insertAt]

/-- Decimal rendering of a natural number (Python `str(n)` via f-strings). -/
def natStr (n : Nat) : Str := (Nat.repr n).data

/-- Decimal rendering of an integer (Python `str(i)` via f-strings). -/
def intStr (i : Int) : Str := (Int.repr i).data

/-- Python `str.lower()` (ASCII case folding, which covers the
configuration vocabulary and the claims). -/
def lowerStr (s : Str) : Str := s.map Char.toLower

/-! ### datetime model

`datetime` values are modelled by their calendar fields; `strftime`
is implemented for the three format strings the code uses, and
subtraction via the proleptic Gregorian ordinal (what Python's
`datetime` arithmetic computes, at second granularity). -/

structure PyDateTime where
  year : Nat
  month : Nat
  day : Nat
  hour : Nat
  minute : Nat
  second : Nat
deriving DecidableEq, Repr

def pad2 (n : Nat) : Str := if n < 10 then '0' :: natStr n else natStr n

def pad4 (n : Nat) : Str :=
  if n < 10 then '0' :: '0' :: '0' :: natStr n
  else if n < 100 then '0' :: '0' :: natStr n
  else if n < 1000 then '0' :: natStr n
  else natStr n

/-- `%Y-%m-%d`. -/
def fmtYmd (t : PyDateTime) : Str :=
  pad4 t.year ++ [ '-' ] ++ pad2 t.month ++ [ '-' ] ++ pad2 t.day

/-- `%Y-%m-%d %H:%M:%S` (entry timestamps). -/
def fmtFull (t : PyDateTime) : Str :=
  fmtYmd t ++ [ ' ' ] ++ pad2 t.hour ++ [ ':' ] ++ pad2 t.minute ++ [ ':' ] ++ pad2 t.second

/-- `%Y-%m-%d %H:%M UTC` (the header `Updated` field and heartbeats). -/
def fmtMin (t : PyDateTime) : Str :=
  fmtYmd t ++ [ ' ' ] ++ pad2 t.hour ++ [ ':' ] ++ pad2 t.minute ++ " UTC".data

/-- `datetime.isoformat()` (at second granularity). -/
def isoformat (t : PyDateTime) : Str :=
  fmtYmd t ++ [ 'T' ] ++ pad2 t.hour ++ [ ':' ] ++ pad2 t.minute ++ [ ':' ] ++ pad2 t.second

def isLeapYear (y : Nat) : Bool := (y % 4 = 0 && y % 100 ≠ 0) || y % 400 = 0

/-- Cumulative days before month `m` (1-based) in a non-leap year. -/
def daysBeforeMonth (m : Nat) (leap : Bool) : Nat :=
  [0, 31, 59, 90, 120, 151, 181, 212, 243, 273, 304, 334].getD (m - 1) 0
    + (if leap && m > 2 then 1 else 0)

/-- Proleptic Gregorian day number (Python `date.toordinal() - 1`). -/
def toOrdinal (t : PyDateTime) : Nat :=
  let y := t.year - 1
  365 * y + y / 4 - y / 100 + y / 400 + daysBeforeMonth t.month (isLeapYear t.year) + (t.day - 1)

def toSeconds (t : PyDateTime) : Nat :=
  toOrdinal t * 86400 + t.hour * 3600 + t.minute * 60 + t.second

/-! ### filter.py -/

/-- `EventType` enumeration (filter.py). -/
inductive EventType where
  | ERROR
  | SUCCESS
  | DECISION
  | NOISE
deriving DecidableEq, Repr

/-- `CommandResult` (wrapper.py): the execution outcome record the
classifier and updater consume. -/
structure CommandResult where
  command : Str
  stdout : Str
  stderr : Str
  exit_code : Int
  duration_ms : Nat
  working_dir : Str
  timestamp : PyDateTime

/-- `\w` for the regex `\b` boundaries (ASCII, matching every string the
code's configuration and the claims use). -/
def isWordChar (c : Char) : Bool := c.isAlpha || c.isDigit || c = '_'

/-- Case-insensitive character comparison (`re.IGNORECASE`). -/
def ciEq (a b : Char) : Bool := a.toLower = b.toLower

/-- Case-insensitive literal match at the head of `s`. -/
def matchCIAt : Str → Str → Bool
  | [], _ => true
  | _ :: _, [] => false
  | p :: pt, c :: ct => ciEq p c && matchCIAt pt ct

/-- `\b` boundary holds at index `i` of `s` (looking at the previous
character). -/
def boundaryBefore (s : Str) (i : Nat) : Bool :=
  i = 0 || !isWordChar (s.getD (i - 1) ' ')

/-- `\b` boundary holds at index `i` of `s` (looking at the character at
`i`). -/
def boundaryAfter (s : Str) (i : Nat) : Bool :=
  s.length ≤ i || !isWordChar (s.getD i ' ')

/-- `re.search(r'\bW\b', s, re.IGNORECASE)` for a literal word `W`:
the word occurs at `i` delimited by boundaries. -/
def wordAtCI (w s : Str) (i : Nat) : Bool :=
  boundaryBefore s i && matchCIAt w (s.drop i) && boundaryAfter s (i + w.length)

def containsWordCI (w s : Str) : Bool :=
  (List.range (s.length + 1)).any (fun i => wordAtCI w s i)

/-- A pattern `\bA(sfx)?\b` matches iff one of the spelled-out word
alternatives matches (the optional group either completes a listed word
or is empty). -/
def anyWordCI (ws : List Str) (s : Str) : Bool := ws.any (fun w => containsWordCI w s)

/-- `re.search(r'\bA\b.*\bB\b', s, re.IGNORECASE)` where `A`/`B` each
range over word alternatives: since `.` does not match a newline and
`\n` is a non-word character, this holds iff some line has an `A` word
followed (at or after its end) by a `B` word. -/
def wordsThenWordCI (as bs : List Str) (s : Str) : Bool :=
  (splitLines s).any (fun line =>
    (List.range (line.length + 1)).any (fun i =>
      as.any (fun a =>
        wordAtCI a line i &&
        (List.range (line.length + 1)).any (fun j =>
          decide (i + a.length ≤ j) && bs.any (fun b => wordAtCI b line j)))))

/-- All of the `k` characters of `s` starting at `i` are `\s`. -/
def wsRunAt (s : Str) (i k : Nat) : Bool := ((s.drop i).take k).all pyIsWs

/-- Match the tail of `\bw₁\s+w₂\s+…\s+wₙ\b` at index `i`: each word
case-insensitively, separated by one or more whitespace characters
(`\s+` may cross newlines), with a `\b` after the last word. -/
def gapSeqFrom (s : Str) : List Str → Nat → Bool
  | [], _ => true
  | [w], i => matchCIAt w (s.drop i) && boundaryAfter s (i + w.length)
  | w :: w2 :: rest, i =>
    matchCIAt w (s.drop i) &&
    (List.range (s.length + 1)).any (fun k =>
      decide (1 ≤ k) && wsRunAt s (i + w.length) k && gapSeqFrom s (w2 :: rest) (i + w.length + k))

/-- `re.search(r'\bw₁\s+…\s+wₙ\b', s, re.IGNORECASE)`. -/
def searchGapSeq (ws : List Str) (s : Str) : Bool :=
  (List.range (s.length + 1)).any (fun i => boundaryBefore s i && gapSeqFrom s ws i)

/-- One entry of `SIGNIFICANT_PATTERNS`: the regex source text (whose
lower-cased form the classifier inspects for error vocabulary) together
with its compiled search over the combined output. -/
structure SigPattern where
  text : Str
  search : Str → Bool

/-- `EventFilter` configuration (filter.py). -/
structure EventFilter where
  IGNORE_COMMANDS : List Str
  SIGNIFICANT_PATTERNS : List SigPattern
  ALWAYS_CAPTURE : List Str

/-- The `IGNORE_COMMANDS` default set. -/
def defaultIgnoreCommands : List Str :=
  [ "ls".data, "ll".data, "la".data, "l".data, "dir".data,
    "cd".data, "pwd".data,
    "clear".data, "cls".data,
    "exit".data, "quit".data,
    "cat".data, "head".data, "tail".data, "less".data, "more".data,
    "echo".data, "printf".data,
    "which".data, "whereis".data, "type".data,
    "history".data,
    "whoami".data, "id".data,
    "date".data, "uptime".data ]

/-- The `SIGNIFICANT_PATTERNS` default list, in source order.  Each regex
is paired with a faithful matcher: under `re.IGNORECASE` the three case
variants share one search; `\bfail(ed|ure)?\b` matches exactly a
word-delimited `fail`, `failed` or `failure`; `\bA?\b.*\bB?\b` shapes are
handled per line (`.` does not cross `\n`); `\s+` shapes may cross
lines. -/
def defaultSignificantPatterns : List SigPattern :=
  [ ⟨ "\\berror\\b".data, fun s => containsWordCI "error".data s ⟩,
    ⟨ "\\bError\\b".data, fun s => containsWordCI "error".data s ⟩,
    ⟨ "\\bERROR\\b".data, fun s => containsWordCI "error".data s ⟩,
    ⟨ "\\bexception\\b".data, fun s => containsWordCI "exception".data s ⟩,
    ⟨ "\\bException\\b".data, fun s => containsWordCI "exception".data s ⟩,
    ⟨ "\\bEXCEPTION\\b".data, fun s => containsWordCI "exception".data s ⟩,
    ⟨ "\\btraceback\\b".data, fun s => containsWordCI "traceback".data s ⟩,
    ⟨ "\\bTraceback\\b".data, fun s => containsWordCI "traceback".data s ⟩,
    ⟨ "\\bfail(ed|ure)?\\b".data, fun s => anyWordCI [ "fail".data, "failed".data, "failure".data ] s ⟩,
    ⟨ "\\bFail(ed|ure)?\\b".data, fun s => anyWordCI [ "fail".data, "failed".data, "failure".data ] s ⟩,
    ⟨ "\\bFAIL\\b".data, fun s => containsWordCI "fail".data s ⟩,
    ⟨ "\\bfatal\\b".data, fun s => containsWordCI "fatal".data s ⟩,
    ⟨ "\\bFatal\\b".data, fun s => containsWordCI "fatal".data s ⟩,
    ⟨ "\\bFATAL\\b".data, fun s => containsWordCI "fatal".data s ⟩,
    ⟨ "\\bpanic\\b".data, fun s => containsWordCI "panic".data s ⟩,
    ⟨ "\\bPanic\\b".data, fun s => containsWordCI "panic".data s ⟩,
    ⟨ "\\bPANIC\\b".data, fun s => containsWordCI "panic".data s ⟩,
    ⟨ "\\bcrash(ed)?\\b".data, fun s => anyWordCI [ "crash".data, "crashed".data ] s ⟩,
    ⟨ "\\bCrash(ed)?\\b".data, fun s => anyWordCI [ "crash".data, "crashed".data ] s ⟩,
    ⟨ "\\btimeout\\b".data, fun s => containsWordCI "timeout".data s ⟩,
    ⟨ "\\bTimeout\\b".data, fun s => containsWordCI "timeout".data s ⟩,
    ⟨ "\\bcreated?\\b.*\\bfile\\b".data,
      fun s => wordsThenWordCI [ "create".data, "created".data ] [ "file".data ] s ⟩,
    ⟨ "\\bmodified?\\b.*\\bfiles?\\b".data,
      fun s => wordsThenWordCI [ "modifie".data, "modified".data ] [ "file".data, "files".data ] s ⟩,
    ⟨ "\\bpassed?\\b.*\\btests?\\b".data,
      fun s => wordsThenWordCI [ "passe".data, "passed".data ] [ "test".data, "tests".data ] s ⟩,
    ⟨ "\\bcommitted?\\b".data, fun s => anyWordCI [ "committe".data, "committed".data ] s ⟩,
    ⟨ "\\bdeployed?\\b".data, fun s => anyWordCI [ "deploye".data, "deployed".data ] s ⟩,
    ⟨ "\\bbuild\\s+succeeded\\b".data, fun s => searchGapSeq [ "build".data, "succeeded".data ] s ⟩,
    ⟨ "\\ball\\s+tests\\s+passed\\b".data,
      fun s => searchGapSeq [ "all".data, "tests".data, "passed".data ] s ⟩ ]

/-- The `ALWAYS_CAPTURE` default set. -/
def defaultAlwaysCapture : List Str :=
  [ "git commit".data, "git push".data, "git merge".data,
    "go build".data, "go test".data, "go run".data,
    "npm test".data, "npm run build".data, "npm install".data,
    "pytest".data, "python -m pytest".data,
    "cargo build".data, "cargo test".data,
    "make".data, "make test".data, "make build".data,
    "docker build".data, "docker push".data, "docker compose".data,
    "kubectl apply".data, "kubectl deploy".data ]

/-- `EventFilter()` with the `__post_init__` defaults. -/
def defaultEventFilter : EventFilter :=
  ⟨ defaultIgnoreCommands, defaultSignificantPatterns, defaultAlwaysCapture ⟩

/-- `re.search(r'^HEAD\s+(A|B|…)', command)`: the command starts with
`HEAD`, then one or more whitespace characters, then (when `alts` is
nonempty) one of the alternatives as a plain prefix of the rest.  The
`^` anchors at the string start (no `re.MULTILINE`); matching is
case-sensitive. -/
def headWsAlts (head : Str) (alts : List Str) (s : Str) : Bool :=
  head.isPrefixOf s &&
    (let r := s.drop head.length
     let w := (r.takeWhile pyIsWs).length
     decide (1 ≤ w) && (alts.isEmpty || alts.any (fun a => a.isPrefixOf (r.drop w))))

/-- The `decision_patterns` list local to `classify`, each regex source
paired with its compiled search over the command text. -/
def decisionPatterns : List (Str × (Str → Bool)) :=
  [ ( "^git\\s+(commit|push|merge|rebase|checkout)".data,
      headWsAlts "git".data
        [ "commit".data, "push".data, "merge".data, "rebase".data, "checkout".data ] ),
    ( "^gh\\s+".data, headWsAlts "gh".data [] ),
    ( "^docker\\s+(build|push|run)".data,
      headWsAlts "docker".data [ "build".data, "push".data, "run".data ] ),
    ( "^kubectl\\s+".data, headWsAlts "kubectl".data [] ),
    ( "^terraform\\s+(apply|destroy)".data,
      headWsAlts "terraform".data [ "apply".data, "destroy".data ] ) ]

/-- The error vocabulary that rule 5 looks for in the matched pattern's
source text. -/
def errorKeywords : List Str :=
  [ "error".data, "fail".data, "exception".data, "panic".data, "crash".data ]

/-- `EventFilter.classify` (filter.py lines 85-138), rules in source
order: non-zero exit code; empty command; ignored first token;
always-capture substring of the lower-cased command; first significant
pattern matching `stdout + "\n" + stderr` (error vocabulary in the
pattern text decides Error vs Success); decision command shapes;
otherwise noise. -/
def classify (f : EventFilter) (event : CommandResult) : EventType :=
  if event.exit_code ≠ 0 then .ERROR
  else
    match pySplitWs (pyStrip event.command) with
    | [] => .NOISE
    | c0 :: _ =>
      if f.IGNORE_COMMANDS.contains (lowerStr c0) then .NOISE
      else
        let cmd_lower := lowerStr event.command
        if f.ALWAYS_CAPTURE.any (fun p => containsSub p cmd_lower) then .SUCCESS
        else
          let combined := event.stdout ++ '\n' :: event.stderr
          match f.SIGNIFICANT_PATTERNS.find? (fun p => p.search combined) with
          | some p =>
            if errorKeywords.any (fun k => containsSub k (lowerStr p.text)) then .ERROR
            else .SUCCESS
          | none =>
            if decisionPatterns.any (fun dp => dp.2 event.command) then .DECISION
            else .NOISE

/-- `EventFilter.is_significant`. -/
def is_significant (f : EventFilter) (event : CommandResult) : Bool :=
  classify f event ≠ EventType.NOISE

/-- Search a line for `LIT(.+)` (case-sensitive): leftmost occurrence of
the literal with a nonempty remainder; the greedy `.+` captures to the
end of the (newline-free) line. -/
def searchLitCap (lit : Str) (l : Str) : Option Str :=
  (findCapIdx lit l).map (fun i => l.drop (i + lit.length))

/-- Search a line for a pattern whose backtracking at each position tries
the given literal alternatives in order, each followed by a nonempty
greedy capture (`ERROR:? (.+)` is `alts = ["ERROR: ", "ERROR "]`, and
`FAIL(?:ED)?:? (.+)` its four spellings). -/
def searchAltsCap (alts : List Str) : Str → Option Str
  | [] => none
  | s@(_ :: t) =>
    match alts.findSome? (fun lit =>
      if lit.isPrefixOf s && decide (s.drop lit.length ≠ []) then some (s.drop lit.length)
      else none) with
    | some r => some r
    | none => searchAltsCap alts t

/-- The `priority_patterns` of `extract_error_summary`, in source order,
each mapped to the string the Python code returns on a match (the
captured group, stripped, or for `Traceback.*` the stripped line). -/
def priorityPatterns : List (Str → Option Str) :=
  [ fun l => (searchLitCap "panic: ".data l).map pyStrip,
    fun l => (searchLitCap "Error: ".data l).map pyStrip,
    fun l => (searchAltsCap [ "ERROR: ".data, "ERROR ".data ] l).map pyStrip,
    fun l => (searchLitCap "Fatal: ".data l).map pyStrip,
    fun l => (searchLitCap "Exception: ".data l).map pyStrip,
    fun l => if containsSub "Traceback".data l then some (pyStrip l) else none,
    fun l => (searchAltsCap [ "FAILED: ".data, "FAILED ".data, "FAIL: ".data, "FAIL ".data ] l).map pyStrip ]

/-- `EventFilter.extract_error_summary` (filter.py lines 144-181):
stderr, falling back to stdout; first priority pattern that matches any
line (pattern-major order, as in the nested loops); else the first
stripped line longer than five characters, cut at 200; else
`"Exit code N"`. -/
def extract_error_summary (event : CommandResult) : Str :=
  let output := if event.stderr ≠ [] then event.stderr else event.stdout
  if output = [] then "Exit code ".data ++ intStr event.exit_code
  else
    let lines := splitLines (pyStrip output)
    match priorityPatterns.findSome? (fun pp => lines.findSome? pp) with
    | some r => r
    | none =>
      match lines.findSome? (fun l =>
        let l2 := pyStrip l
        if l2 ≠ [] && decide (l2.length > 5) then some (l2.take 200) else none) with
      | some r => r
      | none => "Exit code ".data ++ intStr event.exit_code

/-- Character class `[a-zA-Z0-9_\-./]` of the first file-path regex. -/
def p1Class (c : Char) : Bool :=
  c.isAlpha || c.isDigit || c = '_' || c = '-' || c = '.' || c = '/'

def isAsciiLetter (c : Char) : Bool := c.isAlpha

/-- Attempt `([a-zA-Z0-9_\-./]+\.[a-zA-Z]{1,10})(?::\d+)?` at the head of
`s`.  With backtracking, the greedy one-or-more class run prefers the
largest split point `j` such that the run has a dot at `j` (with at
least one class character before it) followed by a letter; the greedy
`{1,10}` then takes up to ten letters, and the optional `:line` suffix
(consumed, not captured) needs a colon and at least one digit.  Returns
the captured group and the total number of characters consumed. -/
def p1MatchHere (s : Str) : Option (Str × Nat) :=
  let run := s.takeWhile p1Class
  match (List.range run.length).reverse.find? (fun j =>
      decide (1 ≤ j) && run.getD j ' ' = '.' && isAsciiLetter (run.getD (j + 1) ' ')) with
  | none => none
  | some j =>
    let m := min 10 ((run.drop (j + 1)).takeWhile isAsciiLetter).length
    let g := run.take (j + 1 + m)
    let rest := s.drop (j + 1 + m)
    let colonLen :=
      match rest with
      | c :: r2 =>
        if c = ':' && decide (1 ≤ (r2.takeWhile Char.isDigit).length) then
          1 + (r2.takeWhile Char.isDigit).length
        else 0
      | [] => 0
    some (g, j + 1 + m + colonLen)

/-- `re.findall` for the first file-path regex: scan left to right,
resuming after each whole match. -/
def findallP1 : Str → Nat → List Str
  | _, 0 => []
  | s, fuel + 1 =>
    match s with
    | [] => []
    | _ :: t =>
      match p1MatchHere s with
      | some (g, c) => g :: findallP1 (s.drop c) fuel
      | none => findallP1 t fuel

/-- Attempt `q([^q]+\.[a-zA-Z]{1,10})q` (a quoted path) at the head of
`s`: an opening quote, then a segment up to the next quote that must
consist of at least one character, a dot, and one to ten letters running
exactly to the closing quote.  Returns the captured segment and the
total consumed length. -/
def pqMatchHere (q : Char) (s : Str) : Option (Str × Nat) :=
  match s with
  | [] => none
  | c :: t =>
    if c = q then
      let seg := t.takeWhile (fun d => d ≠ q)
      if seg.length = t.length then none
      else if (List.range seg.length).any (fun j =>
          decide (1 ≤ j) && seg.getD j ' ' = '.' && (seg.drop (j + 1)).all isAsciiLetter &&
          decide (1 ≤ seg.length - (j + 1)) && decide (seg.length - (j + 1) ≤ 10)) then
        some (seg, seg.length + 2)
      else none
    else none

/-- `re.findall` for a quoted-path regex. -/
def findallPq (q : Char) : Str → Nat → List Str
  | _, 0 => []
  | s, fuel + 1 =>
    match s with
    | [] => []
    | _ :: t =>
      match pqMatchHere q s with
      | some (g, c) => g :: findallPq q (s.drop c) fuel
      | none => findallPq q t fuel

/-- First-seen-order deduplication (the `seen` set loop). -/
def dedupFirstAux (seen : List Str) : List Str → List Str
  | [] => []
  | x :: t =>
    if seen.contains x then dedupFirstAux seen t
    else x :: dedupFirstAux (x :: seen) t

def dedupFirst (l : List Str) : List Str := dedupFirstAux [] l

/-- The filter applied to every regex match (filter.py line 204).  Python
evaluates `not m.startswith('http') and '/' in m or '.' in m` with `and`
binding tighter than `or`. -/
def fileMatchKeep (m : Str) : Bool :=
  (!("http".data.isPrefixOf m) && m.contains '/') || m.contains '.'

/-- `EventFilter.extract_file_context` (filter.py lines 183-216):
collect the three patterns' matches over `command\nstderr\nstdout` in
pattern order, keep those passing the line-204 condition and shorter
than 200 characters, deduplicate preserving first-seen order, return at
most ten. -/
def extract_file_context (event : CommandResult) : List Str :=
  let combined := event.command ++ '\n' :: event.stderr ++ '\n' :: event.stdout
  let allMatches :=
    findallP1 combined combined.length
      ++ findallPq '"' combined combined.length
      ++ findallPq (Char.ofNat 39) combined combined.length
  let files := allMatches.filter (fun m => fileMatchKeep m && decide (m.length < 200))
  (dedupFirst files).take 10

/-! ### updater.py

The handoff document is modelled by its text content; every operation is
the read-modify-write transformation the Python code performs on the
file. -/

/-- `HandoffUpdater.SECTIONS`. -/
def SECTIONS : List (Str × Str) :=
  [ ("error".data, "## LOST CONTEXT INSURANCE / Debugging History".data),
    ("success".data, "## COMPLETED THIS SESSION".data),
    ("decision".data, "## LOST CONTEXT INSURANCE / Decision Log".data),
    ("heartbeat".data, "## SESSION METADATA".data) ]

def lookupSection : List (Str × Str) → Str → Option Str
  | [], _ => none
  | (k, v) :: t, key => if k = key then some v else lookupSection t key

/-- The `for i in range(insert_idx, len(lines))` loop of `_insert_entry`:
the first index strictly greater than `start` whose line starts with
`"## "`, else `lines.length`.  (The loop begins at `start` but its
condition `i > insert_idx` skips the first iteration.) -/
def nextSectionIdx (lines : List Str) (start : Nat) : Nat :=
  match (List.range lines.length).find? (fun i =>
      decide (start < i) && "## ".data.isPrefixOf (lines.getD i [])) with
  | some i => i
  | none => lines.length

/-- `HandoffUpdater._insert_entry` (updater.py lines 260-304) on the
document content: find the section marker line, scan forward to the next
top-level section header (or end of file), splice the entry in as one
list element and rejoin; if the marker is absent (or unknown), append
`"\n" + entry` at the end. -/
def insert_entry (section_type entry content : Str) : Str :=
  match lookupSection SECTIONS section_type with
  | some marker =>
    if containsSub marker content then
      let lines := splitLines content
      match lines.findIdx? (fun line => containsSub marker line) with
      | some i => joinLines (insertAt (nextSectionIdx lines (i + 1)) entry lines)
      | none => content ++ '\n' :: entry
    else content ++ '\n' :: entry
  | none => content ++ '\n' :: entry

/-- The header timestamp literal `**Updated:** ` (with its trailing
space) of the `re.sub` pattern `\*\*Updated:\*\* [^\n]+`. -/
def updPat : Str := "**Updated:** ".data

/-- One line under `re.sub(r'\*\*Updated:\*\* [^\n]+', repl, content)`:
the pattern cannot cross a newline and its `[^\n]+` consumes to the end
of the line, so at most one (leftmost) match fires per line and is
replaced by `**Updated:** ts`. -/
def rewriteUpdatedLine (ts : Str) (l : Str) : Str :=
  match findCapIdx updPat l with
  | some i => l.take i ++ updPat ++ ts
  | none => l

/-- `HandoffUpdater._update_timestamp` (updater.py lines 306-323) on the
document content, writing time `now`. -/
def update_timestamp (now : PyDateTime) (content : Str) : Str :=
  joinLines ((splitLines content).map (rewriteUpdatedLine (fmtMin now)))

/-- `HandoffUpdater._truncate` (updater.py lines 325-332). -/
def truncate (text : Str) (max_length : Nat) : Str :=
  if text = [] then []
  else
    let t := pyStrip text
    if t.length ≤ max_length then t
    else t.take max_length ++ "\n... (truncated, ".data ++ natStr t.length ++ " total chars)".data

/-- The `files[:5]` bullet list shared by the error and success
formatters. -/
def filesBullets (files : List Str) : Str :=
  (files.take 5).foldl (fun acc f => acc ++ "- `".data ++ f ++ "`\n".data) []

/-- `HandoffUpdater._format_error_entry` (updater.py lines 118-170).
`error_summary or f"Exit code …"` falls back on `None` or the empty
string. -/
def format_error_entry (event : CommandResult) (error_summary : Option Str)
    (files : Option (List Str)) : Str :=
  let timestamp := fmtFull event.timestamp
  let stderr_truncated := truncate event.stderr 800
  let stdout_truncated := truncate event.stdout 400
  let summary :=
    match error_summary with
    | some s => if s ≠ [] then s else "Exit code ".data ++ intStr event.exit_code
    | none => "Exit code ".data ++ intStr event.exit_code
  let entry :=
    "\n### ⚠ Error: ".data ++ summary.take 100
      ++ "\n\n**Timestamp:** ".data ++ timestamp
      ++ "\n\n**Command:**\n```bash\n".data ++ event.command
      ++ "\n```\n\n**Working Directory:** `".data ++ event.working_dir
      ++ "`\n\n**Exit Code:** ".data ++ intStr event.exit_code
      ++ "\n\n**Stderr:**\n```\n".data ++ stderr_truncated ++ "\n```\n".data
  let entry :=
    if event.stdout ≠ [] && decide (0 < (pyStrip event.stdout).length) then
      entry ++ "\n**Stdout (relevant):**\n```\n".data ++ stdout_truncated ++ "\n```\n".data
    else entry
  let entry :=
    match files with
    | some fs => if fs ≠ [] then entry ++ "\n**Files Involved:**\n".data ++ filesBullets fs else entry
    | none => entry
  entry ++ "\n**Hypothesis:** [To be filled after investigation]\n\n**Resolution:** [To be filled after fix]\n\n---\n".data

/-- `HandoffUpdater._format_success_entry` (updater.py lines 172-216).
`event.command.split()[0]` raises `IndexError` when the command is
nonempty whitespace, modelled by `none`. -/
def format_success_entry (event : CommandResult) (files : Option (List Str)) : Option Str :=
  let timestamp := fmtFull event.timestamp
  let cmd_short? :=
    if event.command ≠ [] then (pySplitWs event.command).head? else some "Command".data
  match cmd_short? with
  | none => none
  | some cmd_short =>
    let title :=
      if decide (50 < event.command.length) then cmd_short ++ " (long command)".data
      else event.command.take 80
    let output_truncated := truncate event.stdout 500
    let entry :=
      "\n### ✓ ".data ++ title
        ++ "\n\n**Timestamp:** ".data ++ timestamp
        ++ "\n\n**Duration:** ".data ++ natStr event.duration_ms
        ++ "ms\n\n**Command:**\n```bash\n".data ++ event.command.take 200
        ++ "\n```\n".data
    let entry :=
      if pyStrip output_truncated ≠ [] then
        entry ++ "\n**Output:**\n```\n".data ++ output_truncated ++ "\n```\n".data
      else entry
    let entry :=
      match files with
      | some fs => if fs ≠ [] then entry ++ "\n**Files Affected:**\n".data ++ filesBullets fs else entry
      | none => entry
    some (entry ++ "\n---\n".data)

/-- `HandoffUpdater._format_decision_entry` (updater.py lines 218-240). -/
def format_decision_entry (event : CommandResult) : Str :=
  let timestamp := fmtFull event.timestamp
  "\n### Decision: ".data ++ event.command.take 80
    ++ "\n\n**Timestamp:** ".data ++ timestamp
    ++ "\n\n**Command:**\n```bash\n".data ++ event.command
    ++ "\n```\n\n**Context:** [Why this command was run]\n\n**Outcome:** ".data
    ++ intStr event.exit_code
    ++ " (0 = success)\n\n**Rationale:** [To be filled - why this approach was chosen]\n\n---\n".data

/-- `HandoffUpdater.append_event` (updater.py lines 93-116) on the
document content at write time `now`: format and insert into the
matching section and refresh the header timestamp; `NOISE` returns
without touching the document.  `none` models the `IndexError` the
success formatter can raise (nothing is written in that case either,
but the exception propagates). -/
def append_event (event : CommandResult) (event_type : EventType)
    (error_summary : Option Str) (files : Option (List Str))
    (now : PyDateTime) (content : Str) : Option Str :=
  match event_type with
  | .ERROR =>
    some (update_timestamp now (insert_entry "error".data (format_error_entry event error_summary files) content))
  | .SUCCESS =>
    (format_success_entry event files).map (fun entry =>
      update_timestamp now (insert_entry "success".data entry content))
  | .DECISION =>
    some (update_timestamp now (insert_entry "decision".data (format_decision_entry event) content))
  | .NOISE => some content

/-- The `session_stats` dict consumed by `append_heartbeat`, with its
optional keys (`dict.get` defaults apply). -/
structure SessionStats where
  duration : Option Str
  command_count : Option Int
  last_command : Option Str
  project_path : Option Str

/-- `HandoffUpdater.append_heartbeat` (updater.py lines 242-258) on the
document content at time `now`.  Note: no timestamp refresh. -/
def append_heartbeat (session_stats : SessionStats) (now : PyDateTime) (content : Str) : Str :=
  let timestamp := fmtMin now
  let entry :=
    "\n### [HEARTBEAT] ".data ++ timestamp
      ++ "\n\n**Session Duration:** ".data ++ session_stats.duration.getD "unknown".data
      ++ "\n**Commands Executed:** ".data ++ intStr (session_stats.command_count.getD 0)
      ++ "\n**Last Command:** `".data ++ (session_stats.last_command.getD "none".data).take 100
      ++ "`\n**Working Directory:** `".data ++ session_stats.project_path.getD "unknown".data
      ++ "`\n\n**Status:** Session active. Continuing work.\n\n---\n".data
  insert_entry "heartbeat".data entry content

/-- `re.findall(r'### ⚠ Error: ([^\n]+)', s)`: the pattern cannot cross a
newline and consumes to the end of the line, so the matches are, per
line, the remainder after the leftmost occurrence of the title literal
that is followed by at least one character. -/
def findallErrorTitles (s : Str) : List Str :=
  (splitLines s).filterMap (fun line =>
    (findCapIdx "### ⚠ Error: ".data line).map (fun i =>
      line.drop (i + "### ⚠ Error: ".data.length)))

/-- `HandoffUpdater.get_recent_errors` (updater.py lines 334-351) on the
document content. -/
def get_recent_errors (count : Nat) (content : Str) : List Str :=
  let error_section := pySplit "## LOST CONTEXT INSURANCE / Debugging History".data content
  if error_section.length < 2 then []
  else
    let error_content := (pySplit "##".data (error_section.getD 1 [])).headD []
    (findallErrorTitles error_content).take count

/-! ### heartbeat.py

The service state carries the fields of `HeartbeatService`; the
externally supplied callbacks are modelled by their behavior on one
invocation: the stats provider either returns a dict or raises, and the
sink either returns or raises (`Except.error` models a raised
exception, which the `try/except` blocks swallow). -/

/-- A Python dict value as the heartbeat stats use them. -/
inductive PyVal where
  | str (s : Str)
  | int (i : Int)
deriving DecidableEq, Repr

abbrev StatsDict := List (Str × PyVal)

/-- `dict.update`: existing keys keep their position and get the new
value; new keys are appended in iteration order. -/
def dictSet (d : StatsDict) (k : Str) (v : PyVal) : StatsDict :=
  if d.any (fun kv => kv.1 = k) then d.map (fun kv => if kv.1 = k then (k, v) else kv)
  else d ++ [(k, v)]

def dictUpdate (d extra : StatsDict) : StatsDict :=
  extra.foldl (fun acc kv => dictSet acc kv.1 kv.2) d

/-- `HeartbeatService` state (heartbeat.py `__init__`). -/
structure HeartbeatService where
  interval : Nat
  get_stats : Option (Except Unit StatsDict)
  on_heartbeat : Option (StatsDict → Except Unit Unit)
  running : Bool
  session_start : PyDateTime
  heartbeat_count : Nat

/-- `HeartbeatService.__init__(interval_minutes, get_stats, on_heartbeat)`:
idle, zero heartbeats, interval stored in seconds. -/
def mkHeartbeatService (interval_minutes : Nat) (get_stats : Option (Except Unit StatsDict))
    (on_heartbeat : Option (StatsDict → Except Unit Unit)) (session_start : PyDateTime) :
    HeartbeatService :=
  ⟨ interval_minutes * 60, get_stats, on_heartbeat, false, session_start, 0 ⟩

/-- `HeartbeatService._get_duration` at current time `now`:
`divmod(int(delta.total_seconds()), 3600)` then `divmod(rem, 60)`
(Python `divmod` floors). -/
def get_duration (now : PyDateTime) (svc : HeartbeatService) : Str :=
  let total : Int := (toSeconds now : Int) - (toSeconds svc.session_start : Int)
  let hours := Int.fdiv total 3600
  let remainder := Int.fmod total 3600
  let minutes := Int.fdiv remainder 60
  let seconds := Int.fmod remainder 60
  if 0 < hours then intStr hours ++ "h ".data ++ intStr minutes ++ "m".data
  else if 0 < minutes then intStr minutes ++ "m ".data ++ intStr seconds ++ "s".data
  else intStr seconds ++ "s".data

/-- The base stats snapshot `_emit_heartbeat` builds after incrementing
the count (heartbeat.py lines 72-77). -/
def baseStats (now : PyDateTime) (svc : HeartbeatService) : StatsDict :=
  [ ("timestamp".data, .str (isoformat now)),
    ("session_start".data, .str (isoformat svc.session_start)),
    ("duration".data, .str (get_duration now svc)),
    ("heartbeat_count".data, .int (svc.heartbeat_count + 1)) ]

/-- Result of one tick: the updated state, the final stats dict, whether
the provider was queried (it is whenever one is set), and the argument
the sink was invoked with (`none` when no sink is set; failures of
either callback are swallowed by the `try/except` blocks, so the tick
always returns). -/
structure EmitResult where
  service : HeartbeatService
  stats : StatsDict
  providerCalled : Bool
  sinkCalled : Option StatsDict

/-- `HeartbeatService._emit_heartbeat` (heartbeat.py lines 68-92) at
current time `now`: increment the count, build the snapshot, merge the
provider's extra stats when the provider is set and does not raise, then
invoke the sink (when set) with the snapshot; exceptions from either
callback are caught and dropped. -/
def emit_heartbeat (now : PyDateTime) (svc : HeartbeatService) : EmitResult :=
  let svc2 := { svc with heartbeat_count := svc.heartbeat_count + 1 }
  let stats := baseStats now svc
  let stats :=
    match svc.get_stats with
    | none => stats
    | some (Except.ok additional_stats) => dictUpdate stats additional_stats
    | some (Except.error _) => stats
  let sinkArg :=
    match svc.on_heartbeat with
    | none => none
    | some _ => some stats
  ⟨ svc2, stats, svc.get_stats.isSome, sinkArg ⟩

/-- `HeartbeatService.emit_now` (heartbeat.py lines 115-117): force one
tick, with no check of the running flag. -/
def emit_now (now : PyDateTime) (svc : HeartbeatService) : EmitResult :=
  emit_heartbeat now svc

/-! ### Concrete inputs used by the claim evaluations and witnesses -/

def ts0 : PyDateTime := ⟨2024, 1, 2, 3, 4, 5⟩

/-- Scenario B outcome. -/
def evScenarioB : CommandResult :=
  ⟨ "go test ./...".data, [], "panic: index out of range [3] with length 2".data, 1, 0, [], ts0 ⟩

/-- An outcome whose quoted URL defeats the `http` filter. -/
def evHttp : CommandResult :=
  ⟨ "\"http://a.com\"".data, [], [], 0, 0, [], ts0 ⟩

/-- A failing outcome used for error entries. -/
def evErr : CommandResult :=
  ⟨ "c".data, [], "x".data, 1, 0, "w".data, ts0 ⟩

/-- A document holding the error section and the section after it. -/
def docErr : Str :=
  "## LOST CONTEXT INSURANCE / Debugging History\n\n## PREVIOUSLY COMPLETED".data

/-- A document whose heartbeat section holds one line before the next
section header. -/
def docHb : Str := "## SESSION METADATA\nx\n## COMPLETED THIS SESSION".data

/-- A document with an `Updated` header field and the heartbeat section. -/
def docUpd : Str :=
  "**Updated:** OLD\n\n## SESSION METADATA\n\n## COMPLETED THIS SESSION".data

def statsHb : SessionStats := ⟨ some "12m".data, some 7, none, none ⟩

/-- A heartbeat service state with a raising provider and a raising sink,
idle, with five past ticks. -/
def svcFail : HeartbeatService :=
  ⟨ 300, some (Except.error ()), some (fun _ => Except.error ()), false, ts0, 5 ⟩

/-! ### Claims -/

/-- C1: the claim expects that inserting N formatted error entries and
reading the section back with `get_recent_errors` yields the N titles,
most recent first.  The code fails at N = 1: the entry is inserted (its
title line is present in the document), yet `get_recent_errors` returns
`[]`, because `error_section[1].split('##')[0]` cuts the scanned span at
the first `###` title line itself. -/
theorem insert_then_read_loses_entries :
    get_recent_errors 1 (insert_entry "error".data (format_error_entry evErr (some "boom".data) none) docErr) = []
    ∧ containsSub "### ⚠ Error: boom".data
        (insert_entry "error".data (format_error_entry evErr (some "boom".data) none) docErr) = true := by
  constructor
  · rfl
  · rfl

/-- C2: the claim expects `insert_entry` to place the entry immediately
after the section's marker line.  On a document whose heartbeat section
holds the line `x` before the next header, the entry lands at index 2 —
after `x`, immediately before the next section header — not at index 1. -/
theorem insert_entry_goes_to_section_bottom :
    insert_entry "heartbeat".data "E".data docHb
        = "## SESSION METADATA\nx\nE\n## COMPLETED THIS SESSION".data
    ∧ (splitLines (insert_entry "heartbeat".data "E".data docHb)).getD 1 [] = "x".data
    ∧ (splitLines (insert_entry "heartbeat".data "E".data docHb)).getD 2 [] = "E".data := by
  refine ⟨rfl, rfl, rfl⟩

/-- C4: the claim says no returned token begins with `http`.  Python
evaluates line 204 as `(not m.startswith('http') and '/' in m) or
('.' in m)`, and every match contains a dot, so the quoted URL passes
the filter: on `evHttp` the result contains `http://a.com`. -/
theorem extract_file_context_returns_http_token :
    extract_file_context evHttp = [ "//a.com".data, "http://a.com".data ]
    ∧ (extract_file_context evHttp).any (fun m => "http".data.isPrefixOf m) = true := by
  refine ⟨rfl, rfl⟩

/-- C5: Scenario B — `go test ./...` with exit code 1 and a Go panic on
stderr classifies as `ERROR`, and the error summary is the captured
remainder of the `panic: ` line. -/
theorem scenario_b_classifies_and_summarizes :
    classify defaultEventFilter evScenarioB = EventType.ERROR
    ∧ extract_error_summary evScenarioB = "index out of range [3] with length 2".data := by
  refine ⟨rfl, rfl⟩

/-- C6: a non-zero exit code classifies as `ERROR` for every
configuration, command text and output content — rule 1 of `classify`
fires before anything else is inspected. -/
theorem classify_nonzero_exit_is_error (f : EventFilter) (event : CommandResult)
    (h : event.exit_code ≠ 0) : classify f event = EventType.ERROR := by
  unfold classify
  rw [if_pos h]

/-- Witness for C6 at a concrete outcome with exit code 1. -/
theorem classify_nonzero_exit_is_error_witness :
    ((1 : Int) ≠ 0) ∧ classify defaultEventFilter evErr = EventType.ERROR :=
  ⟨ by decide, classify_nonzero_exit_is_error defaultEventFilter evErr (by decide) ⟩

/-- C8: one tick never propagates a callback failure: the count is
incremented for every provider/sink behavior (including raising ones),
the provider is queried exactly when one is set, and when the provider
raises while a sink is set, the sink is still invoked with the base
snapshot. -/
theorem emit_heartbeat_swallows_callback_failures (svc : HeartbeatService) (now : PyDateTime) :
    (emit_heartbeat now svc).service.heartbeat_count = svc.heartbeat_count + 1
    ∧ (emit_heartbeat now svc).providerCalled = svc.get_stats.isSome
    ∧ (svc.get_stats = some (Except.error ()) →
        ∀ snk, svc.on_heartbeat = some snk →
          (emit_heartbeat now svc).sinkCalled = some (baseStats now svc)) := by
  refine ⟨rfl, rfl, ?_⟩
  intro hprov snk hsnk
  simp [emit_heartbeat, hprov, hsnk]

/-- Witness for C8 on a service whose provider and sink both raise. -/
theorem emit_heartbeat_swallows_callback_failures_witness :
    (emit_heartbeat ts0 svcFail).service.heartbeat_count = 5 + 1
    ∧ (emit_heartbeat ts0 svcFail).sinkCalled = some (baseStats ts0 svcFail) :=
  ⟨ (emit_heartbeat_swallows_callback_failures svcFail ts0).1,
    (emit_heartbeat_swallows_callback_failures svcFail ts0).2.2 rfl _ rfl ⟩

/-- C9: appending a `NOISE` event writes nothing: the document content is
returned unchanged (no entry, no timestamp refresh). -/
theorem append_event_noise_no_write (event : CommandResult) (error_summary : Option Str)
    (files : Option (List Str)) (now : PyDateTime) (content : Str) :
    append_event event EventType.NOISE error_summary files now content = some content := rfl

/-- C10: `emit_now` forces a tick without consulting the running flag:
even when the service is idle, the count is incremented by one, the
provider is queried, and the sink is invoked. -/
theorem emit_now_ignores_running_flag (svc : HeartbeatService) (now : PyDateTime)
    (hrun : svc.running = false) (hprov : svc.get_stats.isSome = true)
    (hsink : svc.on_heartbeat.isSome = true) :
    (emit_now now svc).service.heartbeat_count = svc.heartbeat_count + 1
    ∧ (emit_now now svc).providerCalled = true
    ∧ (emit_now now svc).sinkCalled.isSome = true := by
  refine ⟨rfl, hprov, ?_⟩
  rcases Option.isSome_iff_exists.mp hsink with ⟨snk, hsnk⟩
  simp [emit_now, emit_heartbeat, hsnk]

/-- Witness for C10 on the idle service with both callbacks set. -/
theorem emit_now_ignores_running_flag_witness :
    (emit_now ts0 svcFail).service.heartbeat_count = 5 + 1
    ∧ (emit_now ts0 svcFail).providerCalled = true
    ∧ (emit_now ts0 svcFail).sinkCalled.isSome = true :=
  emit_now_ignores_running_flag svcFail ts0 rfl rfl rfl

/-! ### Facts about `pyStrip`, used for the truncation claim -/

theorem dropWhile_head_not {p : Char → Bool} {l : Str} {a : Char} {t : Str}
    (h : l.dropWhile p = a :: t) : p a = false := by
  have := List.head?_dropWhile_not p l
  rw [h] at this
  simpa using this

theorem dropWhile_getLast? {p : Char → Bool} :
    ∀ (l : Str), l.dropWhile p ≠ [] → (l.dropWhile p).getLast? = l.getLast? := by
  intro l
  induction l with
  | nil => intro h; simp [List.dropWhile] at h
  | cons c t ih =>
    intro h
    by_cases hc : p c
    · rw [List.dropWhile_cons, if_pos hc] at h ⊢
      rw [ih h]
      have ht : t ≠ [] := by
        intro he
        subst he
        simp [List.dropWhile] at h
      cases t with
      | nil => exact absurd rfl ht
      | cons d r => simp [List.getLast?_cons_cons]
    · rw [List.dropWhile_cons, if_neg hc]

/-- A list whose first and last characters are not whitespace is left
unchanged by `pyStrip`. -/
theorem pyStrip_noop {r : Str}
    (hh : ∀ c, r.head? = some c → pyIsWs c = false)
    (hl : ∀ c, r.getLast? = some c → pyIsWs c = false) : pyStrip r = r := by
  cases hr : r with
  | nil => simp [pyStrip, List.dropWhile]
  | cons c t =>
    have h1 : r.dropWhile pyIsWs = r := by
      rw [hr, List.dropWhile_cons, if_neg ?_]
      have := hh c (by rw [hr]; rfl)
      simp [this]
    have h2 : r.reverse.dropWhile pyIsWs = r.reverse := by
      cases hrev : r.reverse with
      | nil =>
        have : r = [] := by simpa using congrArg List.reverse hrev
        rw [hr] at this
        exact absurd this (by simp)
      | cons d u =>
        rw [List.dropWhile_cons, if_neg ?_]
        have hd : r.getLast? = some d := by
          rw [← List.head?_reverse, hrev]
          rfl
        have := hl d hd
        simp [this]
    rw [← hr]
    unfold pyStrip
    rw [h1, h2, List.reverse_reverse]

theorem pyStrip_head_not_ws (s : Str) :
    ∀ c, (pyStrip s).head? = some c → pyIsWs c = false := by
  intro c hc
  unfold pyStrip at hc
  rw [List.head?_reverse] at hc
  have hne : (s.dropWhile pyIsWs).reverse.dropWhile pyIsWs ≠ [] := by
    intro he
    rw [he] at hc
    simp at hc
  rw [dropWhile_getLast? _ hne, List.getLast?_reverse] at hc
  cases hd : s.dropWhile pyIsWs with
  | nil => rw [hd] at hc; simp at hc
  | cons a t =>
    rw [hd] at hc
    have hac : a = c := by simpa using hc
    subst hac
    exact dropWhile_head_not hd

theorem pyStrip_getLast_not_ws (s : Str) :
    ∀ c, (pyStrip s).getLast? = some c → pyIsWs c = false := by
  intro c hc
  unfold pyStrip at hc
  rw [List.getLast?_reverse] at hc
  cases hd : (s.dropWhile pyIsWs).reverse.dropWhile pyIsWs with
  | nil => rw [hd] at hc; simp at hc
  | cons a t =>
    rw [hd] at hc
    have hac : a = c := by simpa using hc
    subst hac
    exact dropWhile_head_not hd

theorem pyStrip_idem (s : Str) : pyStrip (pyStrip s) = pyStrip s :=
  pyStrip_noop (pyStrip_head_not_ws s) (pyStrip_getLast_not_ws s)

/-- C7: re-truncating an already-truncated string at the same limit keeps
the same visible prefix — the first `L` characters agree. -/
theorem truncate_idempotent_prefix (s : Str) (L : Nat) (h : L < s.length) :
    (truncate (truncate s L) L).take L = (truncate s L).take L := by
  have hsne : s ≠ [] := by
    intro he
    subst he
    simp at h
  by_cases hle : (pyStrip s).length ≤ L
  · have hts : truncate s L = pyStrip s := by
      unfold truncate
      rw [if_neg hsne, if_pos hle]
    rw [hts]
    by_cases ht : pyStrip s = []
    · rw [ht]
      rfl
    · have h2 : truncate (pyStrip s) L = pyStrip s := by
        unfold truncate
        rw [if_neg ht, pyStrip_idem, if_pos hle]
      rw [h2]
  · push_neg at hle
    by_cases hL : L = 0
    · subst hL
      simp
    · have htne : pyStrip s ≠ [] := by
        intro he
        rw [he] at hle
        simp at hle
      obtain ⟨c, t2, hct⟩ : ∃ c t2, pyStrip s = c :: t2 := by
        cases hx : pyStrip s with
        | nil => exact absurd hx htne
        | cons a b => exact ⟨a, b, rfl⟩
      have hlen_take : ((pyStrip s).take L).length = L := by
        rw [List.length_take]
        omega
      have hts : truncate s L
          = (pyStrip s).take L
            ++ ("\n... (truncated, ".data ++ natStr (pyStrip s).length ++ " total chars)".data) := by
        unfold truncate
        rw [if_neg hsne, if_neg (by omega : ¬ (pyStrip s).length ≤ L)]
        simp [List.append_assoc]
      set sfx : Str :=
        "\n... (truncated, ".data ++ natStr (pyStrip s).length ++ " total chars)".data with hsfx
      set r : Str := (pyStrip s).take L ++ sfx with hr
      have hsfx_last : sfx.getLast? = some ')' := by
        rw [hsfx, List.getLast?_append, List.getLast?_append]
        rfl
      have hr_head : r.head? = some c := by
        rw [hr, List.head?_append, List.head?_take, if_neg hL, hct]
        rfl
      have hr_noop : pyStrip r = r := by
        apply pyStrip_noop
        · intro d hd
          rw [hr_head] at hd
          have hcd : c = d := by simpa using hd
          subst hcd
          have hall := pyStrip_head_not_ws s
          rw [hct] at hall
          exact hall c rfl
        · intro d hd
          rw [hr, List.getLast?_append, hsfx_last] at hd
          have hcd : ')' = d := by simpa using hd
          subst hcd
          decide
      have hr_ne : r ≠ [] := by
        rw [hr, hct]
        cases L with
        | zero => exact absurd rfl hL
        | succ m => simp
      have hsfx_pos : 0 < sfx.length := by
        have hA : sfx.head? = some '\n' := by
          rw [hsfx, List.head?_append]
          rfl
        cases hx : sfx with
        | nil => rw [hx] at hA; simp at hA
        | cons a b => simp [hx]
      have hr_len : ¬ r.length ≤ L := by
        rw [hr, List.length_append, hlen_take]
        omega
      rw [hts]
      have h2 : truncate r L
          = r.take L ++ ("\n... (truncated, ".data ++ natStr r.length ++ " total chars)".data) := by
        unfold truncate
        rw [if_neg hr_ne, hr_noop, if_neg hr_len]
        simp [List.append_assoc]
      rw [h2]
      have hlen_take_r : (r.take L).length = L := by
        rw [List.length_take, hr, List.length_append, hlen_take]
        omega
      rw [List.take_left' hlen_take_r]

/-- Witness for C7 at a concrete seven-character string and limit 3. -/
theorem truncate_idempotent_prefix_witness :
    3 < ("abcdefg".data).length
    ∧ (truncate (truncate "abcdefg".data 3) 3).take 3 = (truncate "abcdefg".data 3).take 3 :=
  ⟨ by decide, truncate_idempotent_prefix "abcdefg".data 3 (by decide) ⟩

/-! ### The header timestamp refresh (claim C3) -/

/-- The document has a line on which the `re.sub` pattern
`\*\*Updated:\*\* [^\n]+` fires. -/
def hasUpdatedField (content : Str) : Bool :=
  (splitLines content).any (fun l => (findCapIdx updPat l).isSome)

/-- Every line of the document is still a line after `insert_entry`:
both the spliced-list path and the end-of-file fallback keep every
original line intact. -/
theorem mem_splitLines_insert_entry {l : Str} (sec entry content : Str)
    (hmem : l ∈ splitLines content) : l ∈ splitLines (insert_entry sec entry content) := by
  have hfall : l ∈ splitLines (content ++ '\n' :: entry) := by
    rw [splitLines_append_newline]
    exact List.mem_append_left _ hmem
  rcases hsec : lookupSection SECTIONS sec with _ | marker
  · unfold insert_entry
    rw [hsec]
    exact hfall
  · unfold insert_entry
    rw [hsec]
    by_cases hc : containsSub marker content = true
    · simp only [hc, if_true]
      rcases hidx : (splitLines content).findIdx? (fun line => containsSub marker line) with _ | i
      · simp only [hidx]
        exact hfall
      · simp only [hidx]
        rw [splitLines_joinLines _ (insertAt_ne_nil _ _ _)]
        apply List.mem_flatMap.mpr
        refine ⟨l, mem_insertAt _ _ hmem, ?_⟩
        rw [splitLines_eq_self_of_no_newline (not_newline_mem_splitLines hmem)]
        exact List.mem_singleton.mpr rfl
    · simp only [hc, if_false]
      exact hfall

/-- A member of the joined list occurs as an infix block of the joined
text. -/
theorem joinLines_mem_decomp {x : Str} {xs : List Str} (h : x ∈ xs) :
    ∃ p q, joinLines xs = p ++ x ++ q := by
  induction xs with
  | nil => simp at h
  | cons y t ih =>
    rcases List.mem_cons.mp h with h | h
    · subst h
      cases t with
      | nil => exact ⟨[], [], by simp [joinLines, List.intercalate]⟩
      | cons z r =>
        refine ⟨[], '\n' :: joinLines (z :: r), ?_⟩
        have := intercalate_cons_cons [ '\n' ] x z r
        simpa [joinLines] using this
    · cases t with
      | nil => simp at h
      | cons z r =>
        obtain ⟨p, q, hpq⟩ := ih h
        refine ⟨y ++ '\n' :: p, q, ?_⟩
        have hj := intercalate_cons_cons [ '\n' ] y z r
        rw [joinLines] at hpq ⊢
        rw [hj, hpq]
        simp [List.append_assoc]

/-- If a line of the document matches the `Updated` pattern, the rewritten
document contains `**Updated:** ts` for the substituted timestamp. -/
theorem update_timestamp_contains {l content : Str} {i : Nat} (now : PyDateTime)
    (hmem : l ∈ splitLines content) (hfind : findCapIdx updPat l = some i) :
    containsSub (updPat ++ fmtMin now) (update_timestamp now content) = true := by
  apply (containsSub_correct _ _).mpr
  have hmem2 : rewriteUpdatedLine (fmtMin now) l
      ∈ (splitLines content).map (rewriteUpdatedLine (fmtMin now)) :=
    List.mem_map_of_mem _ hmem
  obtain ⟨p, q, hpq⟩ := joinLines_mem_decomp hmem2
  have hrl : rewriteUpdatedLine (fmtMin now) l = l.take i ++ (updPat ++ fmtMin now) := by
    unfold rewriteUpdatedLine
    rw [hfind]
    simp [List.append_assoc]
  refine ⟨p ++ l.take i, q, ?_⟩
  unfold update_timestamp
  rw [hpq, hrl]
  simp [List.append_assoc]

/-- C3 (counterexample): a heartbeat insertion is an accepted write — the
heartbeat entry lands in the document — yet the header's `Updated` field
is not rewritten to the write time: `append_heartbeat` never calls
`_update_timestamp`. -/
theorem append_heartbeat_leaves_updated_stale :
    containsSub "**Updated:** OLD".data (append_heartbeat statsHb ts0 docUpd) = true
    ∧ containsSub (updPat ++ fmtMin ts0) (append_heartbeat statsHb ts0 docUpd) = false
    ∧ containsSub "[HEARTBEAT]".data (append_heartbeat statsHb ts0 docUpd) = true := by
  refine ⟨rfl, rfl, rfl⟩

/-- C3 (amended): for the insertions performed through `append_event` —
error, success and decision entries — any document carrying the header's
`Updated` field ends up containing `**Updated:** <write time>`; heartbeat
insertions are excluded. -/
theorem append_event_refreshes_updated (event : CommandResult) (event_type : EventType)
    (error_summary : Option Str) (files : Option (List Str)) (now : PyDateTime)
    (content d2 : Str)
    (htype : event_type ≠ EventType.NOISE)
    (hupd : hasUpdatedField content = true)
    (happ : append_event event event_type error_summary files now content = some d2) :
    containsSub (updPat ++ fmtMin now) d2 = true := by
  obtain ⟨l, hmem, hsome⟩ := List.any_eq_true.mp hupd
  obtain ⟨i, hfind⟩ := Option.isSome_iff_exists.mp hsome
  cases event_type with
  | NOISE => exact absurd rfl htype
  | ERROR =>
    have happ2 : some (update_timestamp now
        (insert_entry "error".data (format_error_entry event error_summary files) content))
        = some d2 := happ
    have hd := Option.some.inj happ2
    rw [← hd]
    exact update_timestamp_contains now (mem_splitLines_insert_entry _ _ _ hmem) hfind
  | SUCCESS =>
    have happ2 : (format_success_entry event files).map (fun entry =>
        update_timestamp now (insert_entry "success".data entry content)) = some d2 := happ
    rcases Option.map_eq_some'.mp happ2 with ⟨entry, _, hd⟩
    rw [← hd]
    exact update_timestamp_contains now (mem_splitLines_insert_entry _ _ _ hmem) hfind
  | DECISION =>
    have happ2 : some (update_timestamp now
        (insert_entry "decision".data (format_decision_entry event) content)) = some d2 := happ
    have hd := Option.some.inj happ2
    rw [← hd]
    exact update_timestamp_contains now (mem_splitLines_insert_entry _ _ _ hmem) hfind

/-- Witness for the amended C3 on a concrete document and error event. -/
theorem append_event_refreshes_updated_witness :
    (EventType.ERROR ≠ EventType.NOISE)
    ∧ hasUpdatedField docUpd = true
    ∧ append_event evErr EventType.ERROR (some "boom".data) none ts0 docUpd
        = some (update_timestamp ts0
            (insert_entry "error".data (format_error_entry evErr (some "boom".data) none) docUpd))
    ∧ containsSub (updPat ++ fmtMin ts0)
        (update_timestamp ts0
          (insert_entry "error".data (format_error_entry evErr (some "boom".data) none) docUpd)) = true :=
  ⟨ by decide, rfl, rfl,
    append_event_refreshes_updated evErr EventType.ERROR (some "boom".data) none ts0 docUpd _
      (by decide) rfl rfl ⟩

end Shadow
